import Mathlib

/-!
Shallow embedding of the subscription-service repository (Go).

Source layout:
* `internal/domain/models/models.go` — data model (Product, Voucher,
  Subscription, SubscriptionStateChange, statuses, discount kinds).
* `internal/app/subscription/service.go` — CreateSubscription,
  PauseSubscription, UnpauseSubscription, CancelSubscription, validateVoucher.
* `internal/app/voucher/service.go` — CreateVoucher, GetVoucherByCode,
  ValidateVoucher.
* `internal/app/product` service — CreateProductInput.Validate.
* `internal/repository/postgres/subscription_repository.go` — Create, GetByID,
  Update, CreateStateChange.

Conventions of the embedding:
* `github.com/shopspring/decimal` values are modeled as exact rationals `ℚ`
  (the library computes exactly for the additions, subtractions and
  multiplications used here; `Div` by the literal 100 is exact for the decimal
  scales the service stores).
* `uuid.UUID` is modeled as `Nat`, with `uuid.Nil = 0`.
* `time.Time` is modeled by the calendar structure `GoTime` below, with
  `AddDate` month/day normalization reproduced from Go `time.Date`.
* Fallible Go code returns `Except DomainErr`; stateful repository code is
  explicit state passing over association lists.
-/

namespace SubSvc

/-! ### Calendar model (the Go `time` package collaborator)

The service uses `time.Now()`, `Time.AddDate(0, months, 0)`, `Time.Before`
and `Time.After`. Go represents a `Time` as an absolute instant; `AddDate`
reads the calendar date via `t.Date()`, adds the offsets to the year/month/day
fields and renormalizes them with `time.Date`, which folds an out-of-range
month into the year (floor division by 12) and counts an out-of-range day
forward into the following months (so February 31 becomes March 3).
We keep times in normalized calendar form: `year`, `month ∈ [1,12]`,
`day ∈ [1, daysInMonth]`, plus the remaining time of day in `sec`
(never changed by `AddDate`). -/

/-- Leap-year test, from Go `time.isLeap`:
`year%4 == 0 && (year%100 != 0 || year%400 == 0)`.
(Go uses truncated `%`; for a divisibility-by-zero test it agrees with
Lean's euclidean `%`.) -/
def isLeap (y : Int) : Bool :=
  y % 4 == 0 && (y % 100 != 0 || y % 400 == 0)

/-- Length of a month, from Go `time.daysIn` (February has 29 days in a leap
year; April, June, September, November have 30; the rest have 31).
Out-of-range months never occur after normalization; they default to 31. -/
def daysInMonth (year month : Int) : Int :=
  if month = 2 then (if isLeap year then 29 else 28)
  else if month = 4 ∨ month = 6 ∨ month = 9 ∨ month = 11 then 30
  else 31

/-- Month normalization, from Go `time.norm(year, month, 12)`: fold a month
offset into the year by floor division, leaving a month in `[1, 12]`.
(For the positive base 12, Go's `norm` is floor division, which is Lean's
euclidean `/` and `%` on `Int`.) -/
def normMonth (year month : Int) : Int × Int :=
  (year + (month - 1) / 12, (month - 1) % 12 + 1)

/-- Day normalization, from the day-of-month handling of Go `time.Date`:
a day count larger than the current month rolls forward into the following
months (Go adds `day - 1` days to the first of the month, which is the same
computation). The fuel argument bounds the number of month steps; `rollDay`
below supplies enough fuel for every day value reachable here. -/
def rollDayAux : Nat → Int → Int → Int → Int × Int × Int
  | 0, year, month, day => (year, month, day)
  | fuel + 1, year, month, day =>
    if daysInMonth year month < day then
      if month = 12 then rollDayAux fuel (year + 1) 1 (day - daysInMonth year month)
      else rollDayAux fuel year (month + 1) (day - daysInMonth year month)
    else (year, month, day)

/-- Day normalization with sufficient fuel for any starting day. -/
def rollDay (year month day : Int) : Int × Int × Int :=
  rollDayAux day.toNat year month day

/-- A point in time, in normalized Go calendar form: the calendar date plus
the remaining time of day (`sec`), which `AddDate` never changes. -/
structure GoTime where
  year : Int
  month : Int
  day : Int
  sec : Int
  deriving DecidableEq, Repr

/-- Chronological strict order on normalized calendar times; this is what Go
`Time.Before` / `Time.After` compute on the absolute instants. -/
def GoTime.lt (a b : GoTime) : Prop :=
  a.year < b.year ∨
    (a.year = b.year ∧
      (a.month < b.month ∨
        (a.month = b.month ∧
          (a.day < b.day ∨ (a.day = b.day ∧ a.sec < b.sec)))))

instance GoTime.decLt (a b : GoTime) : Decidable (GoTime.lt a b) := by
  unfold GoTime.lt
  infer_instance

/-- Boolean form of `GoTime.lt`: Go `a.Before(b)`; Go `a.After(b)` is
`GoTime.before b a`. -/
def GoTime.before (a b : GoTime) : Bool :=
  decide (GoTime.lt a b)

/-- The calendar fields are in range, as Go `Time.Date()` always yields. -/
def GoTime.Normalized (t : GoTime) : Prop :=
  1 ≤ t.month ∧ t.month ≤ 12 ∧ 1 ≤ t.day ∧ t.day ≤ daysInMonth t.year t.month

instance (t : GoTime) : Decidable t.Normalized := by
  unfold GoTime.Normalized
  infer_instance

/-- Renormalization of out-of-range year/month/day fields, from Go
`time.Date`: fold the month into the year, then roll an overflowing day
forward month by month. -/
def GoTime.normalize (t : GoTime) : GoTime :=
  let ym := normMonth t.year t.month
  let ymd := rollDay ym.1 ym.2 t.day
  ⟨ymd.1, ymd.2.1, ymd.2.2, t.sec⟩

/-- Go `Time.AddDate(years, months, 0)`: add the offsets to the calendar
fields and renormalize. (The subscription service always passes 0 for the
day offset, so this model takes only the year and month offsets.) -/
def GoTime.addDate (t : GoTime) (years months : Int) : GoTime :=
  GoTime.normalize ⟨t.year + years, t.month + months, t.day, t.sec⟩

/-! ### Data model (`internal/domain/models/models.go`) -/

/-- `decimal.Decimal` modeled as an exact rational. -/
abbrev Decimal := ℚ

/-- `uuid.UUID` modeled as a natural number; `uuid.Nil` is 0. -/
abbrev UUID := Nat

/-- `uuid.Nil`, the zero UUID. -/
def uuidNil : UUID := 0

inductive SubscriptionStatus where
  | active
  | paused
  | cancelled
  deriving DecidableEq, Repr

/-- The string value of a `SubscriptionStatus` (a Go string type). -/
def SubscriptionStatus.str : SubscriptionStatus → String
  | .active => "active"
  | .paused => "paused"
  | .cancelled => "cancelled"

inductive DiscountType where
  | fixed
  | percentage
  deriving DecidableEq, Repr

structure Product where
  id : UUID
  name : String
  description : String
  price : Decimal
  durationMonths : Int
  taxRate : Decimal
  isActive : Bool
  deriving DecidableEq

structure Voucher where
  id : UUID
  code : String
  discountType : DiscountType
  discountValue : Decimal
  productId : Option UUID
  isActive : Bool
  expiresAt : GoTime
  deriving DecidableEq

structure Subscription where
  id : UUID
  userId : UUID
  productId : UUID
  voucherId : Option UUID
  status : SubscriptionStatus
  startDate : GoTime
  endDate : GoTime
  trialEndDate : Option GoTime
  originalPrice : Decimal
  discountedPrice : Option Decimal
  taxAmount : Decimal
  totalAmount : Decimal
  createdAt : GoTime
  updatedAt : GoTime
  deriving DecidableEq

/-- Append-only audit record. `previousState` and `newState` are strings in
the database row; the creation record stores `""` as its previous state. -/
structure SubscriptionStateChange where
  id : UUID
  subscriptionId : UUID
  previousState : String
  newState : String
  changedAt : GoTime
  reason : String
  deriving DecidableEq

/-! ### Domain errors (`internal/domain/errors`) -/

structure ValidationError where
  field : String
  message : String
  deriving DecidableEq

inductive DomainErr where
  | validationFailed (errs : List ValidationError)
  | productNotFound
  | inactiveProduct
  | subscriptionNotFound
  | subscriptionNotActive
  | subscriptionInTrial
  | subscriptionAlreadyPaused
  | voucherNotFound
  | voucherExpired
  | voucherInactive
  | voucherInvalid
  /-- Wrapping with `fmt.Errorf("<msg>: %w", err)`. -/
  | wrapped (msg : String) (err : DomainErr)
  deriving DecidableEq

instance {ε α : Type} [DecidableEq ε] [DecidableEq α] : DecidableEq (Except ε α)
  | .error e, .error f =>
    if h : e = f then .isTrue (by rw [h]) else .isFalse (by intro hx; cases hx; exact h rfl)
  | .error _, .ok _ => .isFalse (by intro hx; cases hx)
  | .ok _, .error _ => .isFalse (by intro hx; cases hx)
  | .ok a, .ok b =>
    if h : a = b then .isTrue (by rw [h]) else .isFalse (by intro hx; cases hx; exact h rfl)

/-! ### Repositories (`internal/repository/postgres`), as pure stores -/

structure ProductRepo where
  products : List Product
  deriving DecidableEq

/-- `ProductRepository.GetByID`: `SELECT ... WHERE id = $1`. -/
def ProductRepo.getByID (r : ProductRepo) (id : UUID) : Except DomainErr Product :=
  match r.products.find? (fun p => p.id == id) with
  | some p => .ok p
  | none => .error .productNotFound

structure VoucherRepo where
  vouchers : List Voucher
  deriving DecidableEq

/-- `VoucherRepository.GetByCode`: `SELECT ... WHERE code = $1` — an exact
(case-sensitive) match on the stored code. -/
def VoucherRepo.getByCode (r : VoucherRepo) (code : String) : Except DomainErr Voucher :=
  match r.vouchers.find? (fun v => v.code == code) with
  | some v => .ok v
  | none => .error .voucherNotFound

structure SubscriptionRepo where
  subs : List Subscription
  stateChanges : List SubscriptionStateChange
  deriving DecidableEq

/-- `SubscriptionRepository.GetByID`: `SELECT ... WHERE s.id = $1`. -/
def SubscriptionRepo.getByID (r : SubscriptionRepo) (id : UUID) :
    Except DomainErr Subscription :=
  match r.subs.find? (fun s => s.id == id) with
  | some s => .ok s
  | none => .error .subscriptionNotFound

/-- `SubscriptionRepository.Create`: stamps `CreatedAt`/`UpdatedAt` with the
current time, inserts the subscription row, and inserts the initial audit
record (previous state `""`, reason `"Subscription created"`) in one
transaction. Returns the stamped subscription as Go's in-place mutation does.
(The SQL table has no voucher_id / discounted_price columns; the store here
keeps the full in-memory record, whose extra fields no repository method
ever writes afterwards.) -/
def SubscriptionRepo.create (r : SubscriptionRepo) (now : GoTime) (scId : UUID)
    (sub : Subscription) : SubscriptionRepo × Subscription :=
  let stamped := { sub with createdAt := now, updatedAt := now }
  (⟨r.subs ++ [stamped],
    r.stateChanges ++
      [⟨scId, stamped.id, "", stamped.status.str, now, "Subscription created"⟩]⟩,
   stamped)

/-- `SubscriptionRepository.Update`: stamps `UpdatedAt` with the current time
and runs `UPDATE subscriptions SET status, start_date, end_date,
trial_end_date, updated_at WHERE id = ...`; fails with the not-found error
when no row matches. Only those five columns are written. -/
def SubscriptionRepo.update (r : SubscriptionRepo) (now : GoTime)
    (sub : Subscription) : Except DomainErr SubscriptionRepo :=
  if r.subs.any (fun s => s.id == sub.id) then
    .ok ⟨r.subs.map (fun s =>
          if s.id == sub.id then
            { s with status := sub.status, startDate := sub.startDate,
                     endDate := sub.endDate, trialEndDate := sub.trialEndDate,
                     updatedAt := now }
          else s),
        r.stateChanges⟩
  else .error .subscriptionNotFound

/-- `SubscriptionRepository.CreateStateChange`: inserts one audit row. -/
def SubscriptionRepo.createStateChange (r : SubscriptionRepo)
    (sc : SubscriptionStateChange) : SubscriptionRepo :=
  ⟨r.subs, r.stateChanges ++ [sc]⟩

/-! ### Subscription service (`internal/app/subscription/service.go`)

The Go service holds the three repositories; nondeterministic inputs of each
request — `time.Now()` and the `uuid.New()` results — are passed explicitly. -/

structure ServiceState where
  subRepo : SubscriptionRepo
  productRepo : ProductRepo
  voucherRepo : VoucherRepo
  deriving DecidableEq

structure CreateSubscriptionInput where
  userId : UUID
  productId : UUID
  voucherCode : String
  withTrial : Bool
  deriving DecidableEq

/-- `CreateSubscriptionInput.Validate`: both identifiers must be non-nil. -/
def CreateSubscriptionInput.validate (i : CreateSubscriptionInput) :
    List ValidationError :=
  (if i.userId == uuidNil then [⟨"user_id", "must not be empty"⟩] else []) ++
  (if i.productId == uuidNil then [⟨"product_id", "must not be empty"⟩] else [])

/-- `Service.validateVoucher`: reject an inactive voucher, then one whose
expiry lies strictly before the current time (Go `time.Now().After(expiresAt)`),
then one scoped to a different product. -/
def validateVoucher (now : GoTime) (voucher : Voucher) (productID : UUID) :
    Except DomainErr Unit :=
  if !voucher.isActive then .error .voucherInactive
  else if GoTime.before voucher.expiresAt now then .error .voucherExpired
  else if (match voucher.productId with
           | some pid => pid != productID
           | none => false) then .error .voucherInvalid
  else .ok ()

/-- `Service.CreateSubscription`. `now` is the single `time.Now()` reading of
the request; `newSubId` and `newScId` are the `uuid.New()` results for the
subscription and its initial audit record. -/
def createSubscription (st : ServiceState) (now : GoTime) (newSubId newScId : UUID)
    (input : CreateSubscriptionInput) : Except DomainErr Subscription × ServiceState :=
  if input.validate.length > 0 then
    (.error (.validationFailed input.validate), st)
  else
    match st.productRepo.getByID input.productId with
    | .error err => (.error (.wrapped ("failed to get product") err), st)
    | .ok product =>
      if !product.isActive then (.error .inactiveProduct, st)
      else
        let startDate := now
        let endDate := startDate.addDate 0 product.durationMonths
        let withDates : GoTime × GoTime × Option GoTime :=
          if input.withTrial then
            let trialEnd := startDate.addDate 0 1
            (trialEnd, trialEnd.addDate 0 product.durationMonths, some trialEnd)
          else
            (startDate, endDate, none)
        let subscription : Subscription :=
          { id := newSubId
            userId := input.userId
            productId := input.productId
            voucherId := none
            status := .active
            startDate := withDates.1
            endDate := withDates.2.1
            trialEndDate := withDates.2.2
            originalPrice := product.price
            discountedPrice := none
            taxAmount := product.price * product.taxRate
            totalAmount := product.price + product.price * product.taxRate
            createdAt := now
            updatedAt := now }
        let withVoucher : Except DomainErr Subscription :=
          if input.voucherCode != "" then
            match st.voucherRepo.getByCode input.voucherCode with
            | .error err => .error (.wrapped ("invalid voucher code") err)
            | .ok voucher =>
              match validateVoucher now voucher product.id with
              | .error err => .error err
              | .ok _ =>
                let raw :=
                  if voucher.discountType = .fixed then
                    product.price - voucher.discountValue
                  else
                    product.price - product.price * (voucher.discountValue / 100)
                let discountedPrice := if raw < 0 then 0 else raw
                .ok { subscription with
                        voucherId := some voucher.id
                        discountedPrice := some discountedPrice
                        taxAmount := discountedPrice * product.taxRate
                        totalAmount := discountedPrice + discountedPrice * product.taxRate }
          else .ok subscription
        match withVoucher with
        | .error err => (.error err, st)
        | .ok sub0 =>
          let created := st.subRepo.create now newScId sub0
          (.ok created.2, { st with subRepo := created.1 })

/-- `Service.PauseSubscription`. -/
def pauseSubscription (st : ServiceState) (now : GoTime) (newScId : UUID) (id : UUID) :
    Except DomainErr Unit × ServiceState :=
  match st.subRepo.getByID id with
  | .error err => (.error err, st)
  | .ok subscription =>
    if subscription.status ≠ .active then (.error .subscriptionNotActive, st)
    else if subscription.trialEndDate.any (fun te => GoTime.before now te) then
      (.error .subscriptionInTrial, st)
    else
      let updated := { subscription with status := .paused }
      let stateChange : SubscriptionStateChange :=
        ⟨newScId, subscription.id, subscription.status.str,
         SubscriptionStatus.paused.str, now, "User requested pause"⟩
      match st.subRepo.update now updated with
      | .error err => (.error (.wrapped ("failed to update subscription") err), st)
      | .ok repo1 =>
        (.ok (), { st with subRepo := repo1.createStateChange stateChange })

/-- `Service.UnpauseSubscription`. -/
def unpauseSubscription (st : ServiceState) (now : GoTime) (newScId : UUID) (id : UUID) :
    Except DomainErr Unit × ServiceState :=
  match st.subRepo.getByID id with
  | .error err => (.error err, st)
  | .ok subscription =>
    if subscription.status ≠ .paused then (.error .subscriptionAlreadyPaused, st)
    else
      let updated := { subscription with status := .active }
      let stateChange : SubscriptionStateChange :=
        ⟨newScId, subscription.id, subscription.status.str,
         SubscriptionStatus.active.str, now, "User requested unpause"⟩
      match st.subRepo.update now updated with
      | .error err => (.error (.wrapped ("failed to update subscription") err), st)
      | .ok repo1 =>
        (.ok (), { st with subRepo := repo1.createStateChange stateChange })

/-- `Service.CancelSubscription`: already-cancelled is a success no-op. -/
def cancelSubscription (st : ServiceState) (now : GoTime) (newScId : UUID) (id : UUID) :
    Except DomainErr Unit × ServiceState :=
  match st.subRepo.getByID id with
  | .error err => (.error err, st)
  | .ok subscription =>
    if subscription.status = .cancelled then (.ok (), st)
    else
      let updated := { subscription with status := .cancelled }
      let stateChange : SubscriptionStateChange :=
        ⟨newScId, subscription.id, subscription.status.str,
         SubscriptionStatus.cancelled.str, now, "User requested cancellation"⟩
      match st.subRepo.update now updated with
      | .error err => (.error (.wrapped ("failed to update subscription") err), st)
      | .ok repo1 =>
        (.ok (), { st with subRepo := repo1.createStateChange stateChange })

/-! ### Voucher service (`internal/app/voucher/service.go`) -/

/-- Go `strings.ToUpper`, restricted to the ASCII range the voucher codes in
this system use: upper-case the string character by character. -/
def goToUpper (s : String) : String :=
  ⟨s.data.map Char.toUpper⟩

structure CreateVoucherInput where
  code : String
  discountType : DiscountType
  discountValue : Decimal
  productId : Option UUID
  isActive : Bool
  expiresAt : GoTime
  deriving DecidableEq

/-- `CreateVoucherInput.Validate` (`now` is the `time.Now()` reading of the
expiry check). -/
def CreateVoucherInput.validate (i : CreateVoucherInput) (now : GoTime) :
    List ValidationError :=
  (if i.code.trim == "" then [⟨"code", "must not be empty"⟩] else []) ++
  (if i.discountType ≠ .fixed ∧ i.discountType ≠ .percentage then
    [⟨"discount_type", "must be either 'fixed' or 'percentage'"⟩] else []) ++
  (if i.discountValue < 0 then [⟨"discount_value", "must not be negative"⟩] else []) ++
  (if i.discountType = .percentage ∧ 100 < i.discountValue then
    [⟨"discount_value", "percentage cannot be greater than 100"⟩] else []) ++
  (if GoTime.before i.expiresAt now then [⟨"expires_at", "must be in the future"⟩] else [])

/-- The construction and store step of `voucher.Service.CreateVoucher`: the
voucher is stored with its code upper-cased. -/
def voucherServiceCreateStore (st : ServiceState) (newId : UUID)
    (input : CreateVoucherInput) : Except DomainErr Voucher × ServiceState :=
  let voucher : Voucher :=
    { id := newId
      code := goToUpper input.code
      discountType := input.discountType
      discountValue := input.discountValue
      productId := input.productId
      isActive := input.isActive
      expiresAt := input.expiresAt }
  (.ok voucher, { st with voucherRepo := ⟨st.voucherRepo.vouchers ++ [voucher]⟩ })

/-- `voucher.Service.CreateVoucher`: validates, checks a scoped product
exists, and stores the voucher with its code upper-cased. -/
def voucherServiceCreate (st : ServiceState) (now : GoTime) (newId : UUID)
    (input : CreateVoucherInput) : Except DomainErr Voucher × ServiceState :=
  if (input.validate now).length > 0 then
    (.error (.validationFailed (input.validate now)), st)
  else
    match input.productId with
    | some pid =>
      match st.productRepo.getByID pid with
      | .error err => (.error (.wrapped ("invalid product ID") err), st)
      | .ok _ => voucherServiceCreateStore st newId input
    | none => voucherServiceCreateStore st newId input

/-- `voucher.Service.GetVoucherByCode`: upper-cases the supplied code before
the repository lookup. -/
def voucherServiceGetByCode (st : ServiceState) (code : String) :
    Except DomainErr Voucher :=
  st.voucherRepo.getByCode (goToUpper code)

/-- `voucher.Service.ValidateVoucher`: upper-cases the supplied code, resolves
the voucher, and applies the same three checks as the subscription service. -/
def voucherServiceValidate (st : ServiceState) (now : GoTime) (code : String)
    (productID : UUID) : Except DomainErr Voucher :=
  match st.voucherRepo.getByCode (goToUpper code) with
  | .error err => .error err
  | .ok voucher =>
    if !voucher.isActive then .error .voucherInactive
    else if GoTime.before voucher.expiresAt now then .error .voucherExpired
    else if (match voucher.productId with
             | some pid => pid != productID
             | none => false) then .error .voucherInvalid
    else .ok voucher

/-! ### Product service validation (`internal/app/product`) -/

structure CreateProductInput where
  name : String
  description : String
  price : Decimal
  durationMonths : Int
  taxRate : Decimal
  isActive : Bool
  deriving DecidableEq

/-- `product.CreateProductInput.Validate`: non-empty name, non-negative price
and tax rate, and a duration of at least one month. -/
def CreateProductInput.validate (i : CreateProductInput) : List ValidationError :=
  (if i.name.trim == "" then [⟨"name", "must not be empty"⟩] else []) ++
  (if i.price < 0 then [⟨"price", "must not be negative"⟩] else []) ++
  (if i.durationMonths ≤ 0 then [⟨"duration_months", "must be greater than 0"⟩] else []) ++
  (if i.taxRate < 0 then [⟨"tax_rate", "must not be negative"⟩] else [])

/-! ### Sequences of lifecycle operations -/

/-- One lifecycle request against the subscription service (creation is not a
lifecycle operation). -/
inductive Op where
  | pause (now : GoTime) (scId : UUID) (id : UUID)
  | unpause (now : GoTime) (scId : UUID) (id : UUID)
  | cancel (now : GoTime) (scId : UUID) (id : UUID)

/-- The state after serving one lifecycle request. -/
def applyOp (st : ServiceState) : Op → ServiceState
  | .pause now scId id => (pauseSubscription st now scId id).2
  | .unpause now scId id => (unpauseSubscription st now scId id).2
  | .cancel now scId id => (cancelSubscription st now scId id).2

/-- The state after serving a sequence of lifecycle requests. -/
def runOps (st : ServiceState) (ops : List Op) : ServiceState :=
  ops.foldl applyOp st

/-- Distinct rows have distinct ids — the `id UUID PRIMARY KEY` constraint of
the subscriptions table. -/
def SubscriptionRepo.UniqueIds (r : SubscriptionRepo) : Prop :=
  r.subs.Pairwise (fun a b => a.id ≠ b.id)

/-- Two subscription records agree on every field other than the status and
the updated timestamp. -/
def FrameEq (a b : Subscription) : Prop :=
  a.id = b.id ∧ a.userId = b.userId ∧ a.productId = b.productId ∧
  a.voucherId = b.voucherId ∧ a.startDate = b.startDate ∧ a.endDate = b.endDate ∧
  a.trialEndDate = b.trialEndDate ∧ a.originalPrice = b.originalPrice ∧
  a.discountedPrice = b.discountedPrice ∧ a.taxAmount = b.taxAmount ∧
  a.totalAmount = b.totalAmount ∧ a.createdAt = b.createdAt

/-! ### Concrete fixtures, used to evaluate the definitions on closed inputs -/

/-- A normalized reference instant: 2025-06-15, noon. -/
def exNow : GoTime := ⟨2025, 6, 15, 43200⟩

/-- The rate 1/5, built in lowest terms so that comparisons on it compute. -/
def exTaxRate : Decimal := ⟨1, 5, by norm_num, by norm_num⟩

def exProduct : Product :=
  { id := 2, name := "Basic", description := "", price := 100,
    durationMonths := 1, taxRate := exTaxRate, isActive := true }

def exVoucher : Voucher :=
  { id := 3, code := "TEST20", discountType := .percentage, discountValue := 20,
    productId := none, isActive := true, expiresAt := ⟨2026, 1, 1, 0⟩ }

def exSubActive : Subscription :=
  { id := 5, userId := 1, productId := 2, voucherId := none, status := .active,
    startDate := ⟨2025, 6, 15, 43200⟩, endDate := ⟨2025, 7, 15, 43200⟩,
    trialEndDate := none, originalPrice := 100, discountedPrice := none,
    taxAmount := 20, totalAmount := 120,
    createdAt := ⟨2025, 6, 15, 43200⟩, updatedAt := ⟨2025, 6, 15, 43200⟩ }

def exSubCancelled : Subscription :=
  { exSubActive with id := 6, status := .cancelled }

def exState : ServiceState :=
  { subRepo := ⟨[exSubActive, exSubCancelled], []⟩,
    productRepo := ⟨[exProduct]⟩,
    voucherRepo := ⟨[exVoucher]⟩ }

def exInputPlain : CreateSubscriptionInput := ⟨1, 2, "", false⟩

def exInputVoucher : CreateSubscriptionInput := ⟨1, 2, "TEST20", false⟩

def exInputTrial : CreateSubscriptionInput := ⟨1, 2, "", true⟩

/-- The subscription `createSubscription exState exNow 10 11 exInputPlain`
produces. -/
def exCreatedPlain : Subscription :=
  { id := 10, userId := 1, productId := 2, voucherId := none, status := .active,
    startDate := exNow, endDate := exNow.addDate 0 exProduct.durationMonths,
    trialEndDate := none,
    originalPrice := exProduct.price, discountedPrice := none,
    taxAmount := exProduct.price * exProduct.taxRate,
    totalAmount := exProduct.price + exProduct.price * exProduct.taxRate,
    createdAt := exNow, updatedAt := exNow }

/-- The raw 20% discount off the example product's price (80). -/
def exRawDiscount : Decimal :=
  exProduct.price - exProduct.price * (exVoucher.discountValue / 100)

/-- The example discounted price after the zero clamp. -/
def exDp : Decimal := if exRawDiscount < 0 then 0 else exRawDiscount

/-- The subscription `createSubscription exState exNow 10 11 exInputVoucher`
produces (20% discount: 80 plus 16 tax). -/
def exCreatedVoucher : Subscription :=
  { exCreatedPlain with
    voucherId := some exVoucher.id
    discountedPrice := some exDp
    taxAmount := exDp * exProduct.taxRate
    totalAmount := exDp + exDp * exProduct.taxRate }

/-- The subscription `createSubscription exState exNow 10 11 exInputTrial`
produces (one-month trial prepended to a one-month term). -/
def exCreatedTrial : Subscription :=
  { exCreatedPlain with
    startDate := exNow.addDate 0 1
    endDate := (exNow.addDate 0 1).addDate 0 exProduct.durationMonths
    trialEndDate := some (exNow.addDate 0 1) }

/-- The service state after a creation storing `created` with audit id 11. -/
def exStateAfter (created : Subscription) : ServiceState :=
  { exState with subRepo :=
      ⟨[exSubActive, exSubCancelled, created],
       [⟨11, 10, "", "active", exNow, "Subscription created"⟩]⟩ }

/-! ### Supporting lemmas -/

theorem daysInMonth_ge (year month : Int) : 28 ≤ daysInMonth year month := by
  unfold daysInMonth
  split_ifs <;> omega

theorem daysInMonth_le (year month : Int) : daysInMonth year month ≤ 31 := by
  unfold daysInMonth
  split_ifs <;> omega

theorem normMonth_spec (year month : Int) :
    (normMonth year month).1 * 12 + (normMonth year month).2 = year * 12 + month ∧
    1 ≤ (normMonth year month).2 ∧ (normMonth year month).2 ≤ 12 := by
  unfold normMonth
  refine ⟨?_, ?_, ?_⟩ <;> omega

theorem rollDayAux_spec (fuel : Nat) :
    ∀ year month day : Int, 1 ≤ month → month ≤ 12 → 1 ≤ day →
    day ≤ 28 * fuel + 28 →
    (1 ≤ (rollDayAux fuel year month day).2.1 ∧
     (rollDayAux fuel year month day).2.1 ≤ 12) ∧
    (1 ≤ (rollDayAux fuel year month day).2.2 ∧
     (rollDayAux fuel year month day).2.2 ≤
       daysInMonth (rollDayAux fuel year month day).1
         (rollDayAux fuel year month day).2.1) ∧
    year * 12 + month ≤
      (rollDayAux fuel year month day).1 * 12 + (rollDayAux fuel year month day).2.1 ∧
    ((rollDayAux fuel year month day).1 * 12 + (rollDayAux fuel year month day).2.1 =
       year * 12 + month → (rollDayAux fuel year month day).2.2 = day) := by
  induction fuel with
  | zero =>
    intro year month day hm1 hm2 hd1 hd2
    have h28 := daysInMonth_ge year month
    simp only [rollDayAux]
    refine ⟨⟨hm1, hm2⟩, ⟨hd1, by omega⟩, by omega, by simp⟩
  | succ n ih =>
    intro year month day hm1 hm2 hd1 hd2
    have h28 := daysInMonth_ge year month
    simp only [rollDayAux]
    by_cases hlt : daysInMonth year month < day
    · simp only [if_pos hlt]
      by_cases h12 : month = 12
      · simp only [if_pos h12]
        have := ih (year + 1) 1 (day - daysInMonth year month)
          (by omega) (by omega) (by omega) (by omega)
        refine ⟨this.1, this.2.1, ?_, ?_⟩
        · omega
        · intro h
          omega
      · simp only [if_neg h12]
        have := ih year (month + 1) (day - daysInMonth year month)
          (by omega) (by omega) (by omega) (by omega)
        refine ⟨this.1, this.2.1, ?_, ?_⟩
        · omega
        · intro h
          omega
    · simp only [if_neg hlt]
      refine ⟨⟨hm1, hm2⟩, ⟨hd1, by omega⟩, by omega, by simp⟩

theorem rollDay_spec (year month day : Int) (hm1 : 1 ≤ month) (hm2 : month ≤ 12)
    (hd : 1 ≤ day) :
    (1 ≤ (rollDay year month day).2.1 ∧ (rollDay year month day).2.1 ≤ 12) ∧
    (1 ≤ (rollDay year month day).2.2 ∧
     (rollDay year month day).2.2 ≤
       daysInMonth (rollDay year month day).1 (rollDay year month day).2.1) ∧
    year * 12 + month ≤
      (rollDay year month day).1 * 12 + (rollDay year month day).2.1 ∧
    ((rollDay year month day).1 * 12 + (rollDay year month day).2.1 =
       year * 12 + month → (rollDay year month day).2.2 = day) := by
  have := rollDayAux_spec day.toNat year month day hm1 hm2 hd (by omega)
  exact this

theorem GoTime.lt_of_monthIndex_lt (a b : GoTime)
    (ha1 : 1 ≤ a.month) (ha2 : a.month ≤ 12) (hb1 : 1 ≤ b.month) (hb2 : b.month ≤ 12)
    (h : a.year * 12 + a.month < b.year * 12 + b.month) : GoTime.lt a b := by
  unfold GoTime.lt
  omega

theorem GoTime.addDate_year (t : GoTime) (y m : Int) :
    (t.addDate y m).year = (rollDay (normMonth (t.year + y) (t.month + m)).1
      (normMonth (t.year + y) (t.month + m)).2 t.day).1 := rfl

theorem GoTime.addDate_month (t : GoTime) (y m : Int) :
    (t.addDate y m).month = (rollDay (normMonth (t.year + y) (t.month + m)).1
      (normMonth (t.year + y) (t.month + m)).2 t.day).2.1 := rfl

theorem GoTime.addDate_day (t : GoTime) (y m : Int) :
    (t.addDate y m).day = (rollDay (normMonth (t.year + y) (t.month + m)).1
      (normMonth (t.year + y) (t.month + m)).2 t.day).2.2 := rfl

theorem GoTime.addDate_sec (t : GoTime) (y m : Int) :
    (t.addDate y m).sec = t.sec := rfl

/-- Adding a positive number of months with `AddDate` moves strictly forward
in time. -/
theorem GoTime.lt_addDate (t : GoTime) (ht : t.Normalized) (m : Int) (hm : 1 ≤ m) :
    GoTime.lt t (t.addDate 0 m) := by
  obtain ⟨hm1, hm2, hd1, _⟩ := ht
  have hnm := normMonth_spec (t.year + 0) (t.month + m)
  have hroll := rollDay_spec (normMonth (t.year + 0) (t.month + m)).1
    (normMonth (t.year + 0) (t.month + m)).2 t.day hnm.2.1 hnm.2.2 hd1
  unfold GoTime.lt
  rw [GoTime.addDate_year, GoTime.addDate_month]
  omega

/-- `AddDate` yields a normalized time whenever its input has a positive day
field (every normalized time does). -/
theorem GoTime.addDate_normalized (t : GoTime) (hd : 1 ≤ t.day) (y m : Int) :
    (t.addDate y m).Normalized := by
  have hnm := normMonth_spec (t.year + y) (t.month + m)
  have hroll := rollDay_spec (normMonth (t.year + y) (t.month + m)).1
    (normMonth (t.year + y) (t.month + m)).2 t.day hnm.2.1 hnm.2.2 hd
  unfold GoTime.Normalized
  rw [GoTime.addDate_year, GoTime.addDate_month, GoTime.addDate_day]
  exact ⟨hroll.1.1, hroll.1.2, hroll.2.1.1, hroll.2.1.2⟩

theorem GoTime.normalized_day_pos (t : GoTime) (ht : t.Normalized) : 1 ≤ t.day :=
  ht.2.2.1

/-- A product input the product service accepts has a positive duration. -/
theorem CreateProductInput.validate_duration_pos (i : CreateProductInput)
    (h : i.validate = []) : 1 ≤ i.durationMonths := by
  by_contra hneg
  have : i.durationMonths ≤ 0 := by omega
  unfold CreateProductInput.validate at h
  rw [if_pos this] at h
  simp at h

/-! ### Repository-level lemmas -/

theorem getByID_ok_id (r : SubscriptionRepo) (id : UUID) (sub : Subscription)
    (h : r.getByID id = .ok sub) : sub.id = id := by
  unfold SubscriptionRepo.getByID at h
  cases hf : r.subs.find? (fun s => s.id == id) with
  | none => rw [hf] at h; cases h
  | some s =>
    rw [hf] at h
    cases h
    have := List.find?_some hf
    simpa using this

theorem getByID_ok_mem (r : SubscriptionRepo) (id : UUID) (sub : Subscription)
    (h : r.getByID id = .ok sub) : sub ∈ r.subs := by
  unfold SubscriptionRepo.getByID at h
  cases hf : r.subs.find? (fun s => s.id == id) with
  | none => rw [hf] at h; cases h
  | some s =>
    rw [hf] at h
    cases h
    exact List.mem_of_find?_eq_some hf

theorem find?_map_of_id_eq (l : List Subscription) (f : Subscription → Subscription)
    (hf : ∀ s, (f s).id = s.id) (id : UUID) :
    (l.map f).find? (fun s => s.id == id) =
      (l.find? (fun s => s.id == id)).map f := by
  induction l with
  | nil => rfl
  | cons a t ih =>
    cases h : (a.id == id) with
    | true => simp [List.find?_cons, hf, h]
    | false => simp [List.find?_cons, hf, h, ih]

/-- The update succeeds whenever a row with the subscription's id exists, and
rewrites exactly the matching rows' five columns. -/
theorem update_eq_of_exists (r : SubscriptionRepo) (now : GoTime)
    (sub' : Subscription) (hex : ∃ s ∈ r.subs, s.id = sub'.id) :
    r.update now sub' =
      .ok ⟨r.subs.map (fun s =>
            if s.id == sub'.id then
              { s with status := sub'.status, startDate := sub'.startDate,
                       endDate := sub'.endDate, trialEndDate := sub'.trialEndDate,
                       updatedAt := now }
            else s),
          r.stateChanges⟩ := by
  obtain ⟨s, hs, hid⟩ := hex
  unfold SubscriptionRepo.update
  rw [if_pos]
  exact List.any_eq_true.mpr ⟨s, hs, by simpa using hid⟩

/-- Lookup after an update: the found row is the old row, rewritten when its
id matches the updated subscription's id. -/
theorem getByID_update (r : SubscriptionRepo) (now : GoTime) (sub' : Subscription)
    (r' : SubscriptionRepo) (h : r.update now sub' = .ok r') (id : UUID) :
    r'.getByID id = (r.getByID id).map (fun s =>
      if s.id == sub'.id then
        { s with status := sub'.status, startDate := sub'.startDate,
                 endDate := sub'.endDate, trialEndDate := sub'.trialEndDate,
                 updatedAt := now }
      else s) := by
  unfold SubscriptionRepo.update at h
  by_cases hc : r.subs.any (fun s => s.id == sub'.id)
  · rw [if_pos hc] at h
    cases h
    unfold SubscriptionRepo.getByID
    rw [find?_map_of_id_eq]
    · cases r.subs.find? (fun s => s.id == id) <;> rfl
    · intro s
      by_cases hs : (s.id == sub'.id) <;> simp [hs]
  · rw [if_neg hc] at h
    cases h

/-- Closed form of `pauseSubscription` once the subscription is resolved. -/
theorem pauseSubscription_eq (st : ServiceState) (now : GoTime) (scId id : UUID)
    (sub : Subscription) (hget : st.subRepo.getByID id = .ok sub) :
    pauseSubscription st now scId id =
      if sub.status ≠ .active then (.error .subscriptionNotActive, st)
      else if sub.trialEndDate.any (fun te => GoTime.before now te) then
        (.error .subscriptionInTrial, st)
      else
        (.ok (), { st with subRepo :=
          ⟨st.subRepo.subs.map (fun s =>
              if s.id == sub.id then
                { s with status := .paused, startDate := sub.startDate,
                         endDate := sub.endDate, trialEndDate := sub.trialEndDate,
                         updatedAt := now }
              else s),
           st.subRepo.stateChanges ++
             [⟨scId, sub.id, sub.status.str, "paused", now,
               "User requested pause"⟩]⟩ }) := by
  unfold pauseSubscription
  rw [hget]
  simp only
  split_ifs with h1 h2
  · rfl
  · rfl
  · rw [update_eq_of_exists st.subRepo now { sub with status := .paused }
      ⟨sub, getByID_ok_mem _ _ _ hget, rfl⟩]
    rfl

/-- Closed form of `unpauseSubscription` once the subscription is resolved. -/
theorem unpauseSubscription_eq (st : ServiceState) (now : GoTime) (scId id : UUID)
    (sub : Subscription) (hget : st.subRepo.getByID id = .ok sub) :
    unpauseSubscription st now scId id =
      if sub.status ≠ .paused then (.error .subscriptionAlreadyPaused, st)
      else
        (.ok (), { st with subRepo :=
          ⟨st.subRepo.subs.map (fun s =>
              if s.id == sub.id then
                { s with status := .active, startDate := sub.startDate,
                         endDate := sub.endDate, trialEndDate := sub.trialEndDate,
                         updatedAt := now }
              else s),
           st.subRepo.stateChanges ++
             [⟨scId, sub.id, sub.status.str, "active", now,
               "User requested unpause"⟩]⟩ }) := by
  unfold unpauseSubscription
  rw [hget]
  simp only
  split_ifs with h1
  · rfl
  · rw [update_eq_of_exists st.subRepo now { sub with status := .active }
      ⟨sub, getByID_ok_mem _ _ _ hget, rfl⟩]
    rfl

/-- Closed form of `cancelSubscription` once the subscription is resolved. -/
theorem cancelSubscription_eq (st : ServiceState) (now : GoTime) (scId id : UUID)
    (sub : Subscription) (hget : st.subRepo.getByID id = .ok sub) :
    cancelSubscription st now scId id =
      if sub.status = .cancelled then (.ok (), st)
      else
        (.ok (), { st with subRepo :=
          ⟨st.subRepo.subs.map (fun s =>
              if s.id == sub.id then
                { s with status := .cancelled, startDate := sub.startDate,
                         endDate := sub.endDate, trialEndDate := sub.trialEndDate,
                         updatedAt := now }
              else s),
           st.subRepo.stateChanges ++
             [⟨scId, sub.id, sub.status.str, "cancelled", now,
               "User requested cancellation"⟩]⟩ }) := by
  unfold cancelSubscription
  rw [hget]
  simp only
  split_ifs with h1
  · rfl
  · rw [update_eq_of_exists st.subRepo now { sub with status := .cancelled }
      ⟨sub, getByID_ok_mem _ _ _ hget, rfl⟩]
    rfl

/-- Lookup in a store whose rows were rewritten by an id-preserving map. -/
theorem getByID_of_map (r : SubscriptionRepo) (scs : List SubscriptionStateChange)
    (f : Subscription → Subscription) (hf : ∀ s, (f s).id = s.id)
    (id : UUID) (sub : Subscription) (hget : r.getByID id = .ok sub) :
    SubscriptionRepo.getByID ⟨r.subs.map f, scs⟩ id = .ok (f sub) := by
  unfold SubscriptionRepo.getByID at *
  rw [show (⟨r.subs.map f, scs⟩ : SubscriptionRepo).subs = r.subs.map f from rfl,
    find?_map_of_id_eq _ _ hf]
  cases hfind : r.subs.find? (fun s => s.id == id) with
  | none => rw [hfind] at hget; cases hget
  | some s => rw [hfind] at hget; cases hget; rfl

/-! ### Claim theorems -/

/-- C1: for a resolved subscription, `PauseSubscription` fails with the
not-active error when the status is not `active`; fails with the in-trial
error when the status is `active` but a trial end date is set that lies
strictly after the current time; both failures leave the state completely
untouched (no subscription update, no audit record); otherwise it succeeds,
sets the status to `paused`, and appends exactly one state change with
previous state `active`, new state `paused` and reason "User requested
pause". -/
theorem pause_spec_C1 (st : ServiceState) (now : GoTime) (scId id : UUID)
    (sub : Subscription) (hget : st.subRepo.getByID id = .ok sub) :
    (sub.status ≠ .active →
      pauseSubscription st now scId id = (.error .subscriptionNotActive, st)) ∧
    (∀ te, sub.status = .active → sub.trialEndDate = some te → GoTime.lt now te →
      pauseSubscription st now scId id = (.error .subscriptionInTrial, st)) ∧
    (sub.status = .active →
      (∀ te, sub.trialEndDate = some te → ¬ GoTime.lt now te) →
      (pauseSubscription st now scId id).1 = .ok () ∧
      (pauseSubscription st now scId id).2.subRepo.getByID id =
        .ok { sub with status := .paused, updatedAt := now } ∧
      (pauseSubscription st now scId id).2.subRepo.stateChanges =
        st.subRepo.stateChanges ++
          [⟨scId, sub.id, "active", "paused", now, "User requested pause"⟩]) := by
  rw [pauseSubscription_eq st now scId id sub hget]
  refine ⟨fun h => by rw [if_pos h], fun te hs hte hlt => ?_, fun hs htr => ?_⟩
  · rw [if_neg (by simp [hs]), if_pos (by simp [hte, GoTime.before, hlt])]
  · have hany : sub.trialEndDate.any (fun te => GoTime.before now te) = false := by
      cases hte : sub.trialEndDate with
      | none => rfl
      | some te => simp [Option.any, GoTime.before, htr te hte]
    rw [if_neg (by simp [hs]), if_neg (by simp [hany])]
    refine ⟨rfl, ?_, by rw [hs]; rfl⟩
    have := getByID_of_map st.subRepo
      (st.subRepo.stateChanges ++
        [⟨scId, sub.id, sub.status.str, "paused", now, "User requested pause"⟩])
      (fun s =>
        if s.id == sub.id then
          { s with status := .paused, startDate := sub.startDate,
                   endDate := sub.endDate, trialEndDate := sub.trialEndDate,
                   updatedAt := now }
        else s)
      (fun s => by by_cases h : (s.id == sub.id) <;> simp [h])
      id sub hget
    simpa using this

theorem pause_spec_C1_witness :
    (pauseSubscription exState exNow 7 5).1 = .ok () ∧
    (pauseSubscription exState exNow 7 5).2.subRepo.getByID 5 =
      .ok { exSubActive with status := .paused, updatedAt := exNow } := by
  have h := (pause_spec_C1 exState exNow 7 5 exSubActive rfl).2.2
    (by decide) (by intro te hte; simp [exSubActive] at hte)
  exact ⟨h.1, h.2.1⟩

/-- C2: for a resolved subscription in `active` or `paused` status,
`CancelSubscription` succeeds, sets the status to `cancelled`, and appends
exactly one state change with reason "User requested cancellation"; for an
already-cancelled subscription it returns success and changes nothing. -/
theorem cancel_spec_C2 (st : ServiceState) (now : GoTime) (scId id : UUID)
    (sub : Subscription) (hget : st.subRepo.getByID id = .ok sub) :
    (sub.status = .active ∨ sub.status = .paused →
      (cancelSubscription st now scId id).1 = .ok () ∧
      (cancelSubscription st now scId id).2.subRepo.getByID id =
        .ok { sub with status := .cancelled, updatedAt := now } ∧
      (cancelSubscription st now scId id).2.subRepo.stateChanges =
        st.subRepo.stateChanges ++
          [⟨scId, sub.id, sub.status.str, "cancelled", now,
            "User requested cancellation"⟩]) ∧
    (sub.status = .cancelled →
      cancelSubscription st now scId id = (.ok (), st)) := by
  rw [cancelSubscription_eq st now scId id sub hget]
  constructor
  · intro hs
    have hnc : sub.status ≠ .cancelled := by
      rcases hs with h | h <;> simp [h]
    rw [if_neg hnc]
    refine ⟨rfl, ?_, rfl⟩
    have := getByID_of_map st.subRepo
      (st.subRepo.stateChanges ++
        [⟨scId, sub.id, sub.status.str, "cancelled", now,
          "User requested cancellation"⟩])
      (fun s =>
        if s.id == sub.id then
          { s with status := .cancelled, startDate := sub.startDate,
                   endDate := sub.endDate, trialEndDate := sub.trialEndDate,
                   updatedAt := now }
        else s)
      (fun s => by by_cases h : (s.id == sub.id) <;> simp [h])
      id sub hget
    simpa using this
  · intro hs
    rw [if_pos hs]

/-- Full characterization of a successful `createSubscription` call. -/
theorem createSubscription_ok (st : ServiceState) (now : GoTime)
    (subId scId : UUID) (input : CreateSubscriptionInput) (sub : Subscription)
    (st' : ServiceState)
    (h : createSubscription st now subId scId input = (.ok sub, st')) :
    ∃ product, st.productRepo.getByID input.productId = .ok product ∧
      product.isActive = true ∧
      sub.id = subId ∧ sub.userId = input.userId ∧
      sub.productId = input.productId ∧ sub.status = .active ∧
      sub.startDate = (if input.withTrial then now.addDate 0 1 else now) ∧
      sub.endDate = (if input.withTrial then
        (now.addDate 0 1).addDate 0 product.durationMonths
        else now.addDate 0 product.durationMonths) ∧
      sub.trialEndDate = (if input.withTrial then some (now.addDate 0 1) else none) ∧
      sub.originalPrice = product.price ∧
      sub.createdAt = now ∧ sub.updatedAt = now ∧
      st'.subRepo.subs = st.subRepo.subs ++ [sub] ∧
      st'.subRepo.stateChanges = st.subRepo.stateChanges ++
        [⟨scId, subId, "", "active", now, "Subscription created"⟩] ∧
      (input.voucherCode = "" →
        sub.voucherId = none ∧ sub.discountedPrice = none ∧
        sub.taxAmount = product.price * product.taxRate ∧
        sub.totalAmount = product.price + product.price * product.taxRate) ∧
      (input.voucherCode ≠ "" →
        ∃ voucher, st.voucherRepo.getByCode input.voucherCode = .ok voucher ∧
          validateVoucher now voucher product.id = .ok () ∧
          sub.voucherId = some voucher.id ∧
          ∃ dp, sub.discountedPrice = some dp ∧
            (voucher.discountType = .fixed →
              dp = if product.price - voucher.discountValue < 0 then 0
                else product.price - voucher.discountValue) ∧
            (voucher.discountType ≠ .fixed →
              dp = if product.price -
                  product.price * (voucher.discountValue / 100) < 0 then 0
                else product.price - product.price * (voucher.discountValue / 100)) ∧
            sub.taxAmount = dp * product.taxRate ∧
            sub.totalAmount = dp + dp * product.taxRate) := by
  unfold createSubscription at h
  by_cases hv : input.validate.length > 0
  · rw [if_pos hv] at h
    exact absurd h (by simp)
  rw [if_neg hv] at h
  cases hprod : st.productRepo.getByID input.productId with
  | error e =>
    rw [hprod] at h
    exact absurd h (by simp)
  | ok product =>
    rw [hprod] at h
    simp only at h
    cases hact : product.isActive with
    | false =>
      rw [hact] at h
      exact absurd h (by simp)
    | true =>
      rw [hact] at h
      simp only [Bool.not_true, if_false] at h
      by_cases hcode : input.voucherCode = ""
      · rw [hcode] at h
        simp only [bne_self_eq_false, if_false, SubscriptionRepo.create] at h
        injection h with h1 h2
        injection h1 with h1
        subst h1
        subst h2
        refine ⟨product, rfl, hact, rfl, rfl, rfl, rfl, ?_, ?_, ?_, rfl,
          rfl, rfl, rfl, rfl, fun _ => ⟨rfl, rfl, rfl, rfl⟩, fun hc => absurd hcode hc⟩
        · cases input.withTrial <;> rfl
        · cases input.withTrial <;> rfl
        · cases input.withTrial <;> rfl
      · have hbne : (input.voucherCode != "") = true := bne_iff_ne.mpr hcode
        rw [hbne] at h
        simp only [if_true] at h
        cases hvouch : st.voucherRepo.getByCode input.voucherCode with
        | error e =>
          rw [hvouch] at h
          exact absurd h (by simp)
        | ok voucher =>
          rw [hvouch] at h
          simp only at h
          cases hval : validateVoucher now voucher product.id with
          | error e =>
            rw [hval] at h
            exact absurd h (by simp)
          | ok u =>
            rw [hval] at h
            simp only [SubscriptionRepo.create] at h
            injection h with h1 h2
            injection h1 with h1
            subst h1
            subst h2
            refine ⟨product, rfl, hact, rfl, rfl, rfl, rfl, ?_, ?_, ?_, rfl,
              rfl, rfl, rfl, rfl, fun hc => absurd hc hcode,
              fun _ => ⟨voucher, rfl, ?_, rfl, ?_⟩⟩
            · cases input.withTrial <;> rfl
            · cases input.withTrial <;> rfl
            · cases input.withTrial <;> rfl
            · cases u
              exact hval
            · by_cases hdt : voucher.discountType = .fixed
              · rw [if_pos hdt]
                exact ⟨_, rfl, fun _ => rfl, fun hne => absurd hdt hne, rfl, rfl⟩
              · rw [if_neg hdt]
                exact ⟨_, rfl, fun heq => absurd heq hdt, fun _ => rfl, rfl, rfl⟩

theorem cancel_spec_C2_witness :
    (cancelSubscription exState exNow 8 5).1 = .ok () ∧
    cancelSubscription exState exNow 9 6 = (.ok (), exState) := by
  refine ⟨((cancel_spec_C2 exState exNow 8 5 exSubActive rfl).1
    (Or.inl (by decide))).1, ?_⟩
  exact (cancel_spec_C2 exState exNow 9 6 exSubCancelled rfl).2 (by decide)

theorem ite_neg_zero_eq_max (x : ℚ) : (if x < 0 then 0 else x) = max 0 x := by
  split_ifs with h
  · exact (max_eq_left h.le).symm
  · exact (max_eq_right (not_lt.mp h)).symm

/-- C5: for a subscription created without a voucher on a product with price p
and tax rate r, the stored pricing is exactly originalPrice = p,
taxAmount = p * r, totalAmount = p + p * r, and no discounted price. -/
theorem create_no_voucher_pricing_C5 (st : ServiceState) (now : GoTime)
    (subId scId : UUID) (input : CreateSubscriptionInput) (product : Product)
    (sub : Subscription) (st' : ServiceState)
    (hcode : input.voucherCode = "")
    (hprod : st.productRepo.getByID input.productId = .ok product)
    (h : createSubscription st now subId scId input = (.ok sub, st')) :
    sub.originalPrice = product.price ∧
    sub.taxAmount = product.price * product.taxRate ∧
    sub.totalAmount = product.price + product.price * product.taxRate ∧
    sub.discountedPrice = none := by
  obtain ⟨p, hp, _, _, _, _, _, _, _, _, hop, _, _, _, _, hnov, _⟩ :=
    createSubscription_ok _ _ _ _ _ _ _ h
  rw [hprod] at hp
  injection hp with hpe
  subst hpe
  obtain ⟨_, hdp, htax, htot⟩ := hnov hcode
  exact ⟨hop, htax, htot, hdp⟩

theorem create_no_voucher_pricing_C5_witness :
    exCreatedPlain.originalPrice = exProduct.price ∧
    exCreatedPlain.taxAmount = exProduct.price * exProduct.taxRate ∧
    exCreatedPlain.totalAmount = exProduct.price + exProduct.price * exProduct.taxRate ∧
    exCreatedPlain.discountedPrice = none :=
  create_no_voucher_pricing_C5 exState exNow 10 11 exInputPlain exProduct
    exCreatedPlain (exStateAfter exCreatedPlain) rfl rfl rfl

/-- C3: for a subscription created with a valid voucher, the discounted price
is max(0, basePrice - discountValue) for a fixed voucher and
max(0, basePrice - basePrice * discountValue / 100) for a percentage voucher,
and the stored tax and total are recomputed from the discounted price:
taxAmount = discountedPrice * taxRate, totalAmount = discountedPrice +
taxAmount — for every non-negative base price, tax rate and discount value. -/
theorem create_voucher_pricing_C3 (st : ServiceState) (now : GoTime)
    (subId scId : UUID) (input : CreateSubscriptionInput) (product : Product)
    (voucher : Voucher) (sub : Subscription) (st' : ServiceState)
    (hpnn : 0 ≤ product.price) (hrnn : 0 ≤ product.taxRate)
    (hdnn : 0 ≤ voucher.discountValue)
    (hcode : input.voucherCode ≠ "")
    (hprod : st.productRepo.getByID input.productId = .ok product)
    (hvouch : st.voucherRepo.getByCode input.voucherCode = .ok voucher)
    (h : createSubscription st now subId scId input = (.ok sub, st')) :
    ∃ dp, sub.discountedPrice = some dp ∧
      (voucher.discountType = .fixed →
        dp = max 0 (product.price - voucher.discountValue)) ∧
      (voucher.discountType = .percentage →
        dp = max 0 (product.price - product.price * voucher.discountValue / 100)) ∧
      sub.taxAmount = dp * product.taxRate ∧
      sub.totalAmount = dp + sub.taxAmount := by
  obtain ⟨p, hp, _, _, _, _, _, _, _, _, _, _, _, _, _, _, hv⟩ :=
    createSubscription_ok _ _ _ _ _ _ _ h
  rw [hprod] at hp
  injection hp with hpe
  subst hpe
  obtain ⟨w, hw, _, _, dp, hdp, hfix, hper, htax, htot⟩ := hv hcode
  rw [hvouch] at hw
  injection hw with hwe
  subst hwe
  refine ⟨dp, hdp, ?_, ?_, htax, by rw [htot, htax]⟩
  · intro hft
    rw [hfix hft, ite_neg_zero_eq_max]
  · intro hpt
    have hne : voucher.discountType ≠ .fixed := by
      rw [hpt]
      intro hx
      cases hx
    rw [hper hne, ite_neg_zero_eq_max, mul_div_assoc]

theorem create_voucher_pricing_C3_witness :
    0 ≤ exProduct.price ∧ 0 ≤ exProduct.taxRate ∧ 0 ≤ exVoucher.discountValue ∧
    ∃ dp, exCreatedVoucher.discountedPrice = some dp ∧
      (exVoucher.discountType = .percentage →
        dp = max 0 (exProduct.price - exProduct.price * exVoucher.discountValue / 100)) ∧
      exCreatedVoucher.taxAmount = dp * exProduct.taxRate ∧
      exCreatedVoucher.totalAmount = dp + exCreatedVoucher.taxAmount := by
  obtain ⟨dp, h1, _, h3, h4, h5⟩ := create_voucher_pricing_C3 exState exNow 10 11
    exInputVoucher exProduct exVoucher exCreatedVoucher
    (exStateAfter exCreatedVoucher) (by decide) (by decide) (by decide)
    (by decide) rfl rfl rfl
  exact ⟨by decide, by decide, by decide, dp, h1, h3, h4, h5⟩

/-- C6: for a subscription created with a trial at time t on a product with
duration d months, trialEndDate = t + 1 month, startDate = trialEndDate, and
endDate = startDate + d months; in particular for d = 1, trialEndDate =
startDate and endDate = startDate + 1 month. -/
theorem create_trial_dates_C6 (st : ServiceState) (now : GoTime)
    (subId scId : UUID) (input : CreateSubscriptionInput) (product : Product)
    (sub : Subscription) (st' : ServiceState)
    (htrial : input.withTrial = true)
    (hprod : st.productRepo.getByID input.productId = .ok product)
    (h : createSubscription st now subId scId input = (.ok sub, st')) :
    sub.trialEndDate = some (now.addDate 0 1) ∧
    sub.startDate = now.addDate 0 1 ∧
    sub.endDate = sub.startDate.addDate 0 product.durationMonths ∧
    (product.durationMonths = 1 →
      sub.trialEndDate = some sub.startDate ∧
      sub.endDate = sub.startDate.addDate 0 1) := by
  obtain ⟨p, hp, _, _, _, _, _, hst, hend, hte, _, _, _, _, _, _, _⟩ :=
    createSubscription_ok _ _ _ _ _ _ _ h
  rw [hprod] at hp
  injection hp with hpe
  subst hpe
  rw [htrial] at hst hend hte
  simp only [if_true] at hst hend hte
  refine ⟨hte, hst, by rw [hend, hst], fun hd => ⟨by rw [hte, hst], ?_⟩⟩
  rw [hend, hst, hd]

theorem create_trial_dates_C6_witness :
    exCreatedTrial.trialEndDate = some (exNow.addDate 0 1) ∧
    exCreatedTrial.startDate = exNow.addDate 0 1 ∧
    exCreatedTrial.endDate = exCreatedTrial.startDate.addDate 0 exProduct.durationMonths ∧
    (exProduct.durationMonths = 1 →
      exCreatedTrial.trialEndDate = some exCreatedTrial.startDate ∧
      exCreatedTrial.endDate = exCreatedTrial.startDate.addDate 0 1) :=
  create_trial_dates_C6 exState exNow 10 11 exInputTrial exProduct exCreatedTrial
    (exStateAfter exCreatedTrial) rfl rfl rfl

theorem GoTime.before_iff (a b : GoTime) : GoTime.before a b = true ↔ GoTime.lt a b := by
  unfold GoTime.before
  exact decide_eq_true_iff

/-- C4: voucher validation fails with the inactive error whenever the voucher
is not active; otherwise fails with the expired error exactly when the current
time lies strictly after the expiry (at the expiry instant the voucher is
still valid); otherwise fails with the not-applicable error exactly when a
scoping product id is set and differs from the target product (no scoping id
passes for any product); otherwise succeeds — precedence inactive, expired,
scope mismatch. -/
theorem validateVoucher_spec_C4 (now : GoTime) (voucher : Voucher) (productID : UUID) :
    (voucher.isActive = false →
      validateVoucher now voucher productID = .error .voucherInactive) ∧
    (voucher.isActive = true →
      (validateVoucher now voucher productID = .error .voucherExpired ↔
        GoTime.lt voucher.expiresAt now)) ∧
    (voucher.isActive = true → ¬ GoTime.lt voucher.expiresAt now →
      (validateVoucher now voucher productID = .error .voucherInvalid ↔
        ∃ pid, voucher.productId = some pid ∧ pid ≠ productID)) ∧
    (voucher.isActive = true → ¬ GoTime.lt voucher.expiresAt now →
      (voucher.productId = none ∨ voucher.productId = some productID) →
      validateVoucher now voucher productID = .ok ()) ∧
    (∀ st code, st.voucherRepo.getByCode (goToUpper code) = .ok voucher →
      voucherServiceValidate st now code productID =
        match validateVoucher now voucher productID with
        | .ok _ => .ok voucher
        | .error err => .error err) := by
  refine ⟨fun h => by simp [validateVoucher, h], fun ha => ?_, fun ha hnlt => ?_,
    fun ha hnlt hscope => ?_, fun st code hlook => ?_⟩
  · by_cases hlt : GoTime.lt voucher.expiresAt now
    · have hb : GoTime.before voucher.expiresAt now = true := by
        simp [GoTime.before, hlt]
      simp [validateVoucher, ha, hb, hlt]
    · have hb : GoTime.before voucher.expiresAt now = false := by
        simp [GoTime.before, hlt]
      simp only [validateVoucher, ha, Bool.not_true, Bool.false_eq_true, if_false,
        hb, iff_false]
      cases hp : voucher.productId with
      | none => simp [hlt]
      | some pid =>
        by_cases hpe : pid = productID <;> simp [hlt, hpe]
  · have hb : GoTime.before voucher.expiresAt now = false := by
      simp [GoTime.before, hnlt]
    cases hp : voucher.productId with
    | none => simp [validateVoucher, ha, hb, hp]
    | some pid =>
      by_cases hpe : pid = productID <;>
        simp [validateVoucher, ha, hb, hp, hpe]
  · have hb : GoTime.before voucher.expiresAt now = false := by
      simp [GoTime.before, hnlt]
    rcases hscope with hp | hp <;> simp [validateVoucher, ha, hb, hp]
  · unfold voucherServiceValidate validateVoucher
    rw [hlook]
    simp only
    split_ifs <;> rfl

theorem validateVoucher_spec_C4_witness :
    exVoucher.isActive = true ∧ ¬ GoTime.lt exVoucher.expiresAt exNow ∧
    validateVoucher exNow exVoucher 2 = .ok () := by
  refine ⟨by decide, by decide, ?_⟩
  exact (validateVoucher_spec_C4 exNow exVoucher 2).2.2.2.1 (by decide) (by decide)
    (Or.inl (by decide))

/-- Lookup is unchanged when the rewritten rows all have a different id. -/
theorem getByID_map_ne (r : SubscriptionRepo) (scs : List SubscriptionStateChange)
    (sub2 : Subscription) (patch : Subscription → Subscription)
    (hpatch : ∀ s, (patch s).id = s.id)
    (id : UUID) (sub : Subscription) (hget : r.getByID id = .ok sub)
    (hne : sub.id ≠ sub2.id) :
    SubscriptionRepo.getByID
      ⟨r.subs.map (fun s => if s.id == sub2.id then patch s else s), scs⟩ id =
      .ok sub := by
  rw [getByID_of_map r scs _
    (fun s => by by_cases h : (s.id == sub2.id) <;> simp [h, hpatch]) id sub hget]
  simp [hne]

/-- One lifecycle request never changes the stored record of a cancelled
subscription. -/
theorem applyOp_getByID_cancelled (st : ServiceState) (op : Op) (id : UUID)
    (sub : Subscription) (hget : st.subRepo.getByID id = .ok sub)
    (hc : sub.status = .cancelled) :
    (applyOp st op).subRepo.getByID id = .ok sub := by
  have hid : sub.id = id := getByID_ok_id _ _ _ hget
  cases op with
  | pause now scId tid =>
    show (pauseSubscription st now scId tid).2.subRepo.getByID id = .ok sub
    cases hg2 : st.subRepo.getByID tid with
    | error e =>
      unfold pauseSubscription
      rw [hg2]
      exact hget
    | ok sub2 =>
      have hid2 : sub2.id = tid := getByID_ok_id _ _ _ hg2
      rw [pauseSubscription_eq st now scId tid sub2 hg2]
      by_cases h1 : sub2.status = .active
      · have hne : sub.id ≠ sub2.id := by
          rw [hid, hid2]
          intro he
          rw [he] at hget
          rw [hget] at hg2
          injection hg2 with h3
          rw [← h3, hc] at h1
          exact SubscriptionStatus.noConfusion h1
        by_cases h2 : sub2.trialEndDate.any (fun te => GoTime.before now te)
        · rw [if_neg (by simp [h1]), if_pos h2]
          exact hget
        · rw [if_neg (by simp [h1]), if_neg h2]
          exact getByID_map_ne st.subRepo _ sub2
            (fun s =>
              { s with
                status := .paused
                startDate := sub2.startDate
                endDate := sub2.endDate
                trialEndDate := sub2.trialEndDate
                updatedAt := now }) (fun s => rfl) id sub hget hne
      · rw [if_pos h1]
        exact hget
  | unpause now scId tid =>
    show (unpauseSubscription st now scId tid).2.subRepo.getByID id = .ok sub
    cases hg2 : st.subRepo.getByID tid with
    | error e =>
      unfold unpauseSubscription
      rw [hg2]
      exact hget
    | ok sub2 =>
      have hid2 : sub2.id = tid := getByID_ok_id _ _ _ hg2
      rw [unpauseSubscription_eq st now scId tid sub2 hg2]
      by_cases h1 : sub2.status = .paused
      · have hne : sub.id ≠ sub2.id := by
          rw [hid, hid2]
          intro he
          rw [he] at hget
          rw [hget] at hg2
          injection hg2 with h3
          rw [← h3, hc] at h1
          exact SubscriptionStatus.noConfusion h1
        rw [if_neg (by simp [h1])]
        exact getByID_map_ne st.subRepo _ sub2
          (fun s =>
            { s with
              status := .active
              startDate := sub2.startDate
              endDate := sub2.endDate
              trialEndDate := sub2.trialEndDate
              updatedAt := now }) (fun s => rfl) id sub hget hne
      · rw [if_pos h1]
        exact hget
  | cancel now scId tid =>
    show (cancelSubscription st now scId tid).2.subRepo.getByID id = .ok sub
    cases hg2 : st.subRepo.getByID tid with
    | error e =>
      unfold cancelSubscription
      rw [hg2]
      exact hget
    | ok sub2 =>
      have hid2 : sub2.id = tid := getByID_ok_id _ _ _ hg2
      rw [cancelSubscription_eq st now scId tid sub2 hg2]
      by_cases h1 : sub2.status = .cancelled
      · rw [if_pos h1]
        exact hget
      · have hne : sub.id ≠ sub2.id := by
          rw [hid, hid2]
          intro he
          rw [he] at hget
          rw [hget] at hg2
          injection hg2 with h3
          rw [← h3, hc] at h1
          exact absurd rfl h1
        rw [if_neg h1]
        exact getByID_map_ne st.subRepo _ sub2
          (fun s =>
            { s with
              status := .cancelled
              startDate := sub2.startDate
              endDate := sub2.endDate
              trialEndDate := sub2.trialEndDate
              updatedAt := now }) (fun s => rfl) id sub hget hne

theorem runOps_getByID_cancelled (st : ServiceState) (ops : List Op) (id : UUID)
    (sub : Subscription) (hget : st.subRepo.getByID id = .ok sub)
    (hc : sub.status = .cancelled) :
    (runOps st ops).subRepo.getByID id = .ok sub := by
  induction ops generalizing st with
  | nil => exact hget
  | cons op t ih =>
    exact ih (applyOp st op) (applyOp_getByID_cancelled st op id sub hget hc)

/-- C7: cancelled is absorbing — pause and unpause on a cancelled subscription
are rejected with state-conflict errors and change nothing, cancel is a
success no-op, and along every sequence of lifecycle operations a cancelled
subscription's stored record (in particular its status) never changes. -/
theorem cancelled_terminal_C7 (st : ServiceState) (id : UUID) (sub : Subscription)
    (hget : st.subRepo.getByID id = .ok sub) (hc : sub.status = .cancelled) :
    (∀ now scId, pauseSubscription st now scId id =
      (.error .subscriptionNotActive, st)) ∧
    (∀ now scId, unpauseSubscription st now scId id =
      (.error .subscriptionAlreadyPaused, st)) ∧
    (∀ now scId, cancelSubscription st now scId id = (.ok (), st)) ∧
    (∀ ops, ∃ sub', (runOps st ops).subRepo.getByID id = .ok sub' ∧
      sub'.status = .cancelled) := by
  refine ⟨fun now scId => ?_, fun now scId => ?_, fun now scId => ?_, fun ops => ?_⟩
  · rw [pauseSubscription_eq st now scId id sub hget, if_pos (by simp [hc])]
  · rw [unpauseSubscription_eq st now scId id sub hget, if_pos (by simp [hc])]
  · rw [cancelSubscription_eq st now scId id sub hget, if_pos hc]
  · exact ⟨sub, runOps_getByID_cancelled st ops id sub hget hc, hc⟩

theorem cancelled_terminal_C7_witness :
    pauseSubscription exState exNow 20 6 = (.error .subscriptionNotActive, exState) ∧
    unpauseSubscription exState exNow 21 6 =
      (.error .subscriptionAlreadyPaused, exState) ∧
    cancelSubscription exState exNow 22 6 = (.ok (), exState) := by
  have h := cancelled_terminal_C7 exState 6 exSubCancelled rfl (by decide)
  exact ⟨h.1 exNow 20, h.2.1 exNow 21, h.2.2.1 exNow 22⟩

theorem FrameEq.refl (a : Subscription) : FrameEq a a :=
  ⟨rfl, rfl, rfl, rfl, rfl, rfl, rfl, rfl, rfl, rfl, rfl, rfl⟩

theorem eq_of_mem_of_id_eq {l : List Subscription}
    (hl : l.Pairwise (fun a b => a.id ≠ b.id)) {a b : Subscription}
    (ha : a ∈ l) (hb : b ∈ l) (hid : a.id = b.id) : a = b := by
  induction l with
  | nil => cases ha
  | cons x t ih =>
    rcases List.pairwise_cons.mp hl with ⟨hx, ht⟩
    rcases List.mem_cons.mp ha with ha1 | ha2
    · rcases List.mem_cons.mp hb with hb1 | hb2
      · rw [ha1, hb1]
      · subst ha1
        exact absurd hid (hx b hb2)
    · rcases List.mem_cons.mp hb with hb1 | hb2
      · subst hb1
        exact absurd hid.symm (hx a ha2)
      · exact ih ht ha2 hb2

/-- Rows of a store rewritten by a transition are frame-equal to old rows,
provided ids are unique. -/
theorem subs_map_frame (r : SubscriptionRepo) (huniq : r.UniqueIds)
    (sub2 : Subscription) (hmem : sub2 ∈ r.subs)
    (newStatus : SubscriptionStatus) (now : GoTime) :
    ∀ s' ∈ r.subs.map (fun s =>
        if s.id == sub2.id then
          { s with
            status := newStatus
            startDate := sub2.startDate
            endDate := sub2.endDate
            trialEndDate := sub2.trialEndDate
            updatedAt := now }
        else s),
      ∃ s ∈ r.subs, FrameEq s' s := by
  intro s' hs'
  obtain ⟨s, hs, rfl⟩ := List.mem_map.mp hs'
  by_cases h : (s.id == sub2.id)
  · have hide : s.id = sub2.id := by simpa using h
    have hse : s = sub2 := eq_of_mem_of_id_eq huniq hs hmem hide
    subst hse
    rw [if_pos h]
    exact ⟨s, hs, FrameEq.refl s⟩
  · rw [if_neg h]
    exact ⟨s, hs, FrameEq.refl s⟩

/-- C10: the three lifecycle operations modify only a subscription's status
and updated timestamp — after any of them, every stored row is frame-equal
(same user id, product id, voucher id, start/end/trial-end dates, original
and discounted prices, tax, total, created timestamp) to a row of the
previous state. -/
theorem transition_frame_C10 (st : ServiceState) (op : Op)
    (huniq : st.subRepo.UniqueIds) :
    ∀ s' ∈ (applyOp st op).subRepo.subs, ∃ s ∈ st.subRepo.subs, FrameEq s' s := by
  have hself : ∀ s' ∈ st.subRepo.subs, ∃ s ∈ st.subRepo.subs, FrameEq s' s :=
    fun s' hs' => ⟨s', hs', FrameEq.refl s'⟩
  cases op with
  | pause now scId tid =>
    show ∀ s' ∈ (pauseSubscription st now scId tid).2.subRepo.subs, _
    cases hg2 : st.subRepo.getByID tid with
    | error e =>
      unfold pauseSubscription
      rw [hg2]
      exact hself
    | ok sub2 =>
      rw [pauseSubscription_eq st now scId tid sub2 hg2]
      by_cases h1 : sub2.status = .active
      · by_cases h2 : sub2.trialEndDate.any (fun te => GoTime.before now te)
        · rw [if_neg (by simp [h1]), if_pos h2]
          exact hself
        · rw [if_neg (by simp [h1]), if_neg h2]
          exact subs_map_frame st.subRepo huniq sub2
            (getByID_ok_mem _ _ _ hg2) .paused now
      · rw [if_pos h1]
        exact hself
  | unpause now scId tid =>
    show ∀ s' ∈ (unpauseSubscription st now scId tid).2.subRepo.subs, _
    cases hg2 : st.subRepo.getByID tid with
    | error e =>
      unfold unpauseSubscription
      rw [hg2]
      exact hself
    | ok sub2 =>
      rw [unpauseSubscription_eq st now scId tid sub2 hg2]
      by_cases h1 : sub2.status = .paused
      · rw [if_neg (by simp [h1])]
        exact subs_map_frame st.subRepo huniq sub2
          (getByID_ok_mem _ _ _ hg2) .active now
      · rw [if_pos h1]
        exact hself
  | cancel now scId tid =>
    show ∀ s' ∈ (cancelSubscription st now scId tid).2.subRepo.subs, _
    cases hg2 : st.subRepo.getByID tid with
    | error e =>
      unfold cancelSubscription
      rw [hg2]
      exact hself
    | ok sub2 =>
      rw [cancelSubscription_eq st now scId tid sub2 hg2]
      by_cases h1 : sub2.status = .cancelled
      · rw [if_pos h1]
        exact hself
      · rw [if_neg h1]
        exact subs_map_frame st.subRepo huniq sub2
          (getByID_ok_mem _ _ _ hg2) .cancelled now

theorem transition_frame_C10_witness :
    exState.subRepo.UniqueIds ∧
    ∃ s' , s' ∈ (applyOp exState (.pause exNow 30 5)).subRepo.subs ∧
      ∃ s ∈ exState.subRepo.subs, FrameEq s' s := by
  have huniq : exState.subRepo.UniqueIds := by
    unfold SubscriptionRepo.UniqueIds exState
    decide
  have hmem : { exSubActive with status := .paused, updatedAt := exNow } ∈
      (applyOp exState (.pause exNow 30 5)).subRepo.subs := by decide
  exact ⟨huniq, _, hmem,
    transition_frame_C10 exState (.pause exNow 30 5) huniq _ hmem⟩

theorem productRepo_getByID_ok_mem (r : ProductRepo) (id : UUID) (p : Product)
    (h : r.getByID id = .ok p) : p ∈ r.products := by
  unfold ProductRepo.getByID at h
  cases hf : r.products.find? (fun q => q.id == id) with
  | none => rw [hf] at h; cases h
  | some q =>
    rw [hf] at h
    cases h
    exact List.mem_of_find?_eq_some hf

/-- Transitions never change the start or end date of any stored row. -/
theorem subs_map_dates (r : SubscriptionRepo) (sub2 : Subscription)
    (newStatus : SubscriptionStatus) (now : GoTime) (id0 : UUID) (a b : GoTime)
    (hinv : ∀ s ∈ r.subs, s.id = id0 → s.startDate = a ∧ s.endDate = b)
    (hmem : sub2 ∈ r.subs) :
    ∀ s' ∈ r.subs.map (fun s =>
        if s.id == sub2.id then
          { s with
            status := newStatus
            startDate := sub2.startDate
            endDate := sub2.endDate
            trialEndDate := sub2.trialEndDate
            updatedAt := now }
        else s),
      s'.id = id0 → s'.startDate = a ∧ s'.endDate = b := by
  intro s' hs' hid
  obtain ⟨s, hs, rfl⟩ := List.mem_map.mp hs'
  by_cases h : (s.id == sub2.id)
  · rw [if_pos h] at hid ⊢
    have hide : s.id = sub2.id := by simpa using h
    have hid2 : sub2.id = id0 := by
      rw [← hide]
      exact hid
    have h2 := hinv sub2 hmem hid2
    exact ⟨h2.1, h2.2⟩
  · rw [if_neg h] at hid ⊢
    exact hinv s hs hid

theorem applyOp_dates_invariant (st : ServiceState) (op : Op) (id0 : UUID)
    (a b : GoTime)
    (hinv : ∀ s ∈ st.subRepo.subs, s.id = id0 → s.startDate = a ∧ s.endDate = b) :
    ∀ s ∈ (applyOp st op).subRepo.subs, s.id = id0 →
      s.startDate = a ∧ s.endDate = b := by
  cases op with
  | pause now scId tid =>
    show ∀ s ∈ (pauseSubscription st now scId tid).2.subRepo.subs, _
    cases hg2 : st.subRepo.getByID tid with
    | error e =>
      unfold pauseSubscription
      rw [hg2]
      exact hinv
    | ok sub2 =>
      rw [pauseSubscription_eq st now scId tid sub2 hg2]
      by_cases h1 : sub2.status = .active
      · by_cases h2 : sub2.trialEndDate.any (fun te => GoTime.before now te)
        · rw [if_neg (by simp [h1]), if_pos h2]
          exact hinv
        · rw [if_neg (by simp [h1]), if_neg h2]
          exact subs_map_dates st.subRepo sub2 .paused now id0 a b hinv
            (getByID_ok_mem _ _ _ hg2)
      · rw [if_pos h1]
        exact hinv
  | unpause now scId tid =>
    show ∀ s ∈ (unpauseSubscription st now scId tid).2.subRepo.subs, _
    cases hg2 : st.subRepo.getByID tid with
    | error e =>
      unfold unpauseSubscription
      rw [hg2]
      exact hinv
    | ok sub2 =>
      rw [unpauseSubscription_eq st now scId tid sub2 hg2]
      by_cases h1 : sub2.status = .paused
      · rw [if_neg (by simp [h1])]
        exact subs_map_dates st.subRepo sub2 .active now id0 a b hinv
          (getByID_ok_mem _ _ _ hg2)
      · rw [if_pos h1]
        exact hinv
  | cancel now scId tid =>
    show ∀ s ∈ (cancelSubscription st now scId tid).2.subRepo.subs, _
    cases hg2 : st.subRepo.getByID tid with
    | error e =>
      unfold cancelSubscription
      rw [hg2]
      exact hinv
    | ok sub2 =>
      rw [cancelSubscription_eq st now scId tid sub2 hg2]
      by_cases h1 : sub2.status = .cancelled
      · rw [if_pos h1]
        exact hinv
      · rw [if_neg h1]
        exact subs_map_dates st.subRepo sub2 .cancelled now id0 a b hinv
          (getByID_ok_mem _ _ _ hg2)

theorem runOps_dates_invariant (st : ServiceState) (ops : List Op) (id0 : UUID)
    (a b : GoTime)
    (hinv : ∀ s ∈ st.subRepo.subs, s.id = id0 → s.startDate = a ∧ s.endDate = b) :
    ∀ s ∈ (runOps st ops).subRepo.subs, s.id = id0 →
      s.startDate = a ∧ s.endDate = b := by
  induction ops generalizing st with
  | nil => exact hinv
  | cons op t ih =>
    exact ih (applyOp st op) (applyOp_dates_invariant st op id0 a b hinv)

/-- C9: every subscription `createSubscription` produces — with or without a
trial, for every product the system accepts (positive whole-month duration)
— has its end date strictly after its start date, and every later lifecycle
operation leaves both dates (and hence the inequality) unchanged on the
stored record. -/
theorem end_after_start_C9 (st : ServiceState) (now : GoTime) (subId scId : UUID)
    (input : CreateSubscriptionInput) (sub : Subscription) (st1 : ServiceState)
    (ops : List Op)
    (hnow : now.Normalized)
    (hdur : ∀ p ∈ st.productRepo.products, 1 ≤ p.durationMonths)
    (hfresh : ∀ s ∈ st.subRepo.subs, s.id ≠ subId)
    (h : createSubscription st now subId scId input = (.ok sub, st1)) :
    GoTime.lt sub.startDate sub.endDate ∧
    ∀ s ∈ (runOps st1 ops).subRepo.subs, s.id = subId →
      s.startDate = sub.startDate ∧ s.endDate = sub.endDate ∧
      GoTime.lt s.startDate s.endDate := by
  obtain ⟨product, hp, _, hsubid, _, _, _, hst, hend, _, _, _, _, hsubs, _, _, _⟩ :=
    createSubscription_ok _ _ _ _ _ _ _ h
  have hd : 1 ≤ product.durationMonths :=
    hdur product (productRepo_getByID_ok_mem _ _ _ hp)
  have hlt : GoTime.lt sub.startDate sub.endDate := by
    cases hw : input.withTrial with
    | false =>
      rw [hw] at hst hend
      simp at hst hend
      rw [hst, hend]
      exact GoTime.lt_addDate now hnow product.durationMonths hd
    | true =>
      rw [hw] at hst hend
      simp at hst hend
      rw [hst, hend]
      exact GoTime.lt_addDate (now.addDate 0 1)
        (GoTime.addDate_normalized now hnow.2.2.1 0 1) product.durationMonths hd
  have hinv : ∀ s ∈ st1.subRepo.subs, s.id = subId →
      s.startDate = sub.startDate ∧ s.endDate = sub.endDate := by
    intro s hs hid
    rw [hsubs] at hs
    rcases List.mem_append.mp hs with hs1 | hs2
    · exact absurd hid (hfresh s hs1)
    · rcases List.mem_singleton.mp hs2 with rfl
      exact ⟨rfl, rfl⟩
  refine ⟨hlt, fun s hs hid => ?_⟩
  obtain ⟨h1, h2⟩ := runOps_dates_invariant st1 ops subId sub.startDate
    sub.endDate hinv s hs hid
  rw [h1, h2]
  exact ⟨rfl, rfl, hlt⟩

theorem end_after_start_C9_witness :
    exNow.Normalized ∧ (∀ p ∈ exState.productRepo.products, 1 ≤ p.durationMonths) ∧
    GoTime.lt exCreatedPlain.startDate exCreatedPlain.endDate := by
  refine ⟨by decide, by decide, ?_⟩
  exact (end_after_start_C9 exState exNow 10 11 exInputPlain exCreatedPlain
    (exStateAfter exCreatedPlain) [] (by decide) (by decide) (by decide) rfl).1

/-- C8 counterexample: the voucher stored under the upper-cased code "TEST20"
resolves from the lower-case variant "test20" in the standalone voucher
service (lookup and validation), but subscription creation passes the raw
code to the repository, so the same variant fails there with a wrapped
voucher-not-found error — refuting case-insensitivity during creation. -/
theorem voucher_case_C8_counterexample :
    voucherServiceGetByCode exState ("test20") = .ok exVoucher ∧
    voucherServiceValidate exState exNow ("test20") 2 = .ok exVoucher ∧
    (createSubscription exState exNow 12 13 ⟨1, 2, "test20", false⟩).1 =
      .error (.wrapped ("invalid voucher code") .voucherNotFound) := by
  refine ⟨by decide, by decide, by decide⟩

/-- C8 (amended): voucher codes are stored upper-cased, and the standalone
voucher service upper-cases a supplied code before lookup, so any two
letter-case variants of a code resolve identically there (lookup and
validation); subscription creation, however, passes the supplied code to the
repository verbatim, so a code with no exact stored match fails the creation
with a wrapped voucher-not-found error. -/
theorem voucher_case_C8 (st : ServiceState) (now : GoTime) (c1 c2 : String)
    (productID : UUID) (hc : goToUpper c1 = goToUpper c2) :
    voucherServiceGetByCode st c1 = voucherServiceGetByCode st c2 ∧
    voucherServiceValidate st now c1 productID =
      voucherServiceValidate st now c2 productID ∧
    (∀ inputV newId v st2,
      voucherServiceCreate st now newId inputV = (.ok v, st2) →
      v.code = goToUpper inputV.code) ∧
    (∀ input subId scId product e,
      st.productRepo.getByID input.productId = .ok product →
      product.isActive = true → input.validate = [] → input.voucherCode ≠ "" →
      st.voucherRepo.getByCode input.voucherCode = .error e →
      createSubscription st now subId scId input =
        (.error (.wrapped ("invalid voucher code") e), st)) := by
  refine ⟨?_, ?_, ?_, ?_⟩
  · unfold voucherServiceGetByCode
    rw [hc]
  · unfold voucherServiceValidate
    rw [hc]
  · intro inputV newId v st2 h
    unfold voucherServiceCreate at h
    by_cases hv : (inputV.validate now).length > 0
    · rw [if_pos hv] at h
      exact absurd h (by simp)
    rw [if_neg hv] at h
    cases hpid : inputV.productId with
    | none =>
      rw [hpid] at h
      simp only [voucherServiceCreateStore] at h
      injection h with h1 h2
      injection h1 with h1
      rw [← h1]
    | some pid =>
      rw [hpid] at h
      simp only at h
      cases hp : st.productRepo.getByID pid with
      | error e =>
        rw [hp] at h
        exact absurd h (by simp)
      | ok p =>
        rw [hp] at h
        simp only [voucherServiceCreateStore] at h
        injection h with h1 h2
        injection h1 with h1
        rw [← h1]
  · intro input subId scId product e hprod hact hval hcode hvouch
    unfold createSubscription
    rw [if_neg (by simp [hval]), hprod]
    simp only [hact, Bool.not_true, if_false]
    rw [bne_iff_ne.mpr hcode]
    simp only [if_true]
    rw [hvouch]
    rfl

theorem voucher_case_C8_witness :
    voucherServiceGetByCode exState ("test20") =
      voucherServiceGetByCode exState ("TEST20") ∧
    createSubscription exState exNow 12 13 ⟨1, 2, "test20", false⟩ =
      (.error (.wrapped ("invalid voucher code") .voucherNotFound), exState) := by
  have h := voucher_case_C8 exState exNow ("test20") ("TEST20") 2 (by decide)
  exact ⟨h.1, h.2.2.2 ⟨1, 2, "test20", false⟩ 12 13 exProduct .voucherNotFound
    rfl (by decide) (by decide) (by decide) rfl⟩

end SubSvc
